import Mathlib

/-!
# emticketen — verification of the reservation allocator and inventory lifecycle

Shallow embedding of `src/emticketen/models.py` and `src/emticketen/utils.py`.
The four Postgres tables (`events`, `products`, `orders`, `tickets`) become
lists of rows; engine-assigned identity columns become a `nextId` counter.
Each SQL statement of the source is translated to a pure function on this
state.

Concurrency model: the only concurrency primitive the code uses is
`for update skip locked` — a scan that skips rows currently locked by other
open transactions. We model the set of row ids locked by other transactions
as an adversarial parameter `locked` supplied to each operation; a failed
operation's enclosing transaction rolls back to the pre-state (as the test
suite and the spec require). A trace of such atomic steps with adversarial
`locked` sets over-approximates the serializable interleavings of the
skip-locked protocol: rows claimed by a still-open transaction appear in
`locked` for every step that runs while it is open.
-/

namespace Emticketen

/-- Row of the `events` table: `id int primary key generated always as
identity, slug text not null, unique (slug)`. -/
structure EventRow where
  id : Nat
  slug : String
deriving Repr, DecidableEq

/-- Row of the `products` table: `id`, `event_id`, `slug`, `quota`,
`unique (event_id, slug)`. -/
structure ProductRow where
  id : Nat
  event_id : Nat
  slug : String
  quota : Nat
deriving Repr, DecidableEq

/-- Row of the `orders` table: `id`, `event_id`. -/
structure OrderRow where
  id : Nat
  event_id : Nat
deriving Repr, DecidableEq

/-- Row of the `tickets` table: `id`, `product_id`, nullable `order_id`. -/
structure TicketRow where
  id : Nat
  product_id : Nat
  order_id : Option Nat
deriving Repr, DecidableEq

/-- The database state: the four tables plus the identity-column counter
shared by all `generated always as identity` columns (a single counter is
harmless: ids only need to be fresh). -/
structure DB where
  events : List EventRow
  products : List ProductRow
  orders : List OrderRow
  tickets : List TicketRow
  nextId : Nat
deriving Repr, DecidableEq

/-- Python exceptions the embedded code can raise.  `typeError` is Python's
`TypeError`; `notImplementedError` is raised by `Product.ensure_tickets` on a
shrink request; `notEnoughTickets` is `models.NotEnoughTickets`. -/
inductive PyError where
  | typeError
  | notImplementedError
  | notEnoughTickets
  | keyError
  | assertionError
  | multipleRowsReturned
deriving Repr, DecidableEq

/-! ## Entity resolver (`utils.ensure_row` specialized per table)

`ensure_row` runs `insert … on conflict (unique_fields) do nothing
returning …`.  When the row does not yet exist the insert succeeds and the
inserted row is returned.  When it already exists the insert does nothing and
returns no row, and the code falls back to
`get_row(aconn, table_name, *{key: kwargs[key] for key in unique_fields})`:
unpacking that dict with a single `*` passes its KEYS as extra positional
arguments, and `get_row(aconn, table_name, **kwargs)` accepts only two
positional parameters, so Python raises `TypeError` before any query runs.
The embedding reproduces that faithfully: the already-exists path is
`.error .typeError`. -/

/-- Find the `events` row with the given slug (`slug` is unique). -/
def findEvent (db : DB) (slug : String) : Option EventRow :=
  db.events.find? (fun e => e.slug == slug)

/-- Embeds `Event.ensure` = `ensure_row(aconn, "events", ("id", "slug"),
slug=slug)`: insert-on-conflict-do-nothing returning the new row, else the
broken positional `get_row` fallback (a `TypeError`, see above). -/
def Event.ensure (db : DB) (slug : String) : Except PyError (EventRow × DB) :=
  match findEvent db slug with
  | none =>
      let row : EventRow := ⟨db.nextId, slug⟩
      .ok (row, { db with events := db.events ++ [row], nextId := db.nextId + 1 })
  | some _ => .error .typeError

/-- Find the `products` row with the given `(event_id, slug)` (unique). -/
def findProduct (db : DB) (eventId : Nat) (slug : String) : Option ProductRow :=
  db.products.find? (fun p => p.event_id == eventId && p.slug == slug)

/-- Embeds `select count(*) from tickets where product_id = %s`. -/
def countTickets (db : DB) (pid : Nat) : Nat :=
  (db.tickets.filter (fun t => t.product_id == pid)).length

/-- Embeds `Product.ensure_tickets`: count the product's tickets; if the
count equals the quota do nothing; if it exceeds the quota raise
`NotImplementedError("deleting tickets is not implemented")`; otherwise
`insert into tickets (product_id) select %s from generate_series(1, %s)`,
i.e. append `quota - count` fresh rows with null `order_id`. -/
def Product.ensure_tickets (db : DB) (p : ProductRow) : Except PyError DB :=
  let count := countTickets db p.id
  if count = p.quota then .ok db
  else if count > p.quota then .error .notImplementedError
  else .ok { db with
    tickets := db.tickets ++
      (List.range (p.quota - count)).map (fun i => ⟨db.nextId + i, p.id, none⟩),
    nextId := db.nextId + (p.quota - count) }

/-- Embeds `Product.ensure`: `ensure_row` on the `products` table keyed by
`(event_id, slug)` (the already-exists path raises `TypeError` exactly as for
events — and note the conflicting insert's `do nothing` never stores the new
quota), then `ensure_tickets` on the resulting product. -/
def Product.ensure (db : DB) (event : EventRow) (slug : String) (quota : Nat) :
    Except PyError (ProductRow × DB) :=
  match findProduct db event.id slug with
  | none =>
      let row : ProductRow := ⟨db.nextId, event.id, slug, quota⟩
      let db1 : DB :=
        { db with products := db.products ++ [row], nextId := db.nextId + 1 }
      (Product.ensure_tickets db1 row).map (fun db2 => (row, db2))
  | some _ => .error .typeError

/-- Embeds `Order.create`: `insert into orders (event_id) values (%s)
returning id`. -/
def Order.create (db : DB) (event : EventRow) : OrderRow × DB :=
  (⟨db.nextId, event.id⟩,
   { db with orders := db.orders ++ [⟨db.nextId, event.id⟩],
             nextId := db.nextId + 1 })

/-! ## Reservation allocator (`Ticket.reserve`) -/

/-- The rows scanned by the reservation CTE: tickets of the product with
null `order_id`, skipping rows locked by other open transactions. -/
def freeUnlocked (db : DB) (pid : Nat) (locked : List Nat) : List TicketRow :=
  db.tickets.filter
    (fun t => t.product_id == pid && t.order_id == none && !(locked.contains t.id))

/-- The `update tickets set order_id = %s from reserved where tickets.id =
reserved.id` half of the reservation statement: set `order_id` on every
ticket whose id is in the claimed set. -/
def applyClaims (db : DB) (ids : List Nat) (oid : Nat) : DB :=
  { db with tickets := db.tickets.map fun t =>
      if ids.contains t.id then { t with order_id := some oid } else t }

/-- The single SQL statement of `Ticket.reserve`: the CTE selects up to
`quantity` free, unlocked tickets of the product (`limit %s for update skip
locked`), the update claims them for the order, returning the claimed ids. -/
def Ticket.reserveSql (db : DB) (order : OrderRow) (product : ProductRow)
    (quantity : Nat) (locked : List Nat) : List Nat × DB :=
  let ids := ((freeUnlocked db product.id locked).take quantity).map (·.id)
  (ids, applyClaims db ids order.id)

/-- Embeds `Ticket.reserve`: run the claim statement; if fewer than
`quantity` rows came back raise `NotEnoughTickets` (the state the statement
produced is still uncommitted), otherwise return the claimed ids. -/
def Ticket.reserve (db : DB) (order : OrderRow) (product : ProductRow)
    (quantity : Nat) (locked : List Nat) : Except PyError (List Nat) × DB :=
  let r := Ticket.reserveSql db order product quantity locked
  if r.1.length < quantity then (.error .notEnoughTickets, r.2)
  else (.ok r.1, r.2)

/-- A reservation attempt as resolved by the caller-owned transaction: on
success the claims commit; on `NotEnoughTickets` the caller rolls back, so
the pre-state is restored (the uncommitted partial claims are discarded). -/
def Ticket.reserveTx (db : DB) (order : OrderRow) (product : ProductRow)
    (quantity : Nat) (locked : List Nat) : Except PyError (List Nat) × DB :=
  match Ticket.reserve db order product quantity locked with
  | (.error e, _) => (.error e, db)
  | (.ok ids, db1) => (.ok ids, db1)

/-- Embeds `Ticket.count_free`: `select count(*) from tickets where
product_id = %s and order_id is null`. -/
def Ticket.count_free (db : DB) (pid : Nat) : Nat :=
  (db.tickets.filter (fun t => t.product_id == pid && t.order_id == none)).length

/-! ## Availability prober -/

/-- Embeds `Product.get_products_with_availability`: one row per product of
the event; `available` is whether the correlated subquery
`select id from tickets where product_id = products.id and order_id is null
limit 1 for update skip locked` found a row, i.e. whether at least one free,
currently-unlocked ticket of the product exists. -/
def Product.get_products_with_availability (db : DB) (event : EventRow)
    (locked : List Nat) : List (ProductRow × Bool) :=
  (db.products.filter (fun p => p.event_id == event.id)).map
    (fun p => (p,
      (db.tickets.find? (fun t =>
        t.product_id == p.id && t.order_id == none && !(locked.contains t.id))).isSome))

/-- The availability probe as resolved by its transaction: the method runs a
single `select` (no insert, update or delete), and the tentative
`for update skip locked` locks it takes are scoped to its own transaction,
so the committed row state it leaves behind is the input state. -/
def Product.availabilityTx (db : DB) (event : EventRow) (locked : List Nat) :
    List (ProductRow × Bool) × DB :=
  (Product.get_products_with_availability db event locked, db)

/-! ## The operation trace machine

`Event.ensure` and the entity-resolver half of `Product.ensure` write only
the `events` and `products` tables; their effect on the `tickets` table is
exactly an `ensure_tickets` (reconcile) step on the ensured product row.  The
machine whose invariants the spec states over the tickets table therefore
takes reconcile, reserve and availability-probe steps, each an atomic
transaction with the adversarial `locked` set of the moment it ran. -/

/-- One resolved transaction: a quota reconciliation, a reservation attempt
(committed on success, rolled back on `NotEnoughTickets`), or an
availability probe. -/
inductive Op where
  | ensureTk (p : ProductRow)
  | reserveOp (o : OrderRow) (p : ProductRow) (q : Nat) (locked : List Nat)
  | probe (e : EventRow) (locked : List Nat)
deriving Repr, DecidableEq

/-- The state an operation's transaction leaves behind: a reconciliation
that raises leaves the state unchanged (it raises before any insert), a
failed reservation rolls back, a probe writes nothing. -/
def step (db : DB) : Op → DB
  | .ensureTk p =>
      match Product.ensure_tickets db p with
      | .ok db1 => db1
      | .error _ => db
  | .reserveOp o p q locked => (Ticket.reserveTx db o p q locked).2
  | .probe e locked => (Product.availabilityTx db e locked).2

/-- Run a trace of operations in order. -/
def run (db : DB) : List Op → DB
  | [] => db
  | op :: ops => run (step db op) ops

/-- Quantity a single operation successfully reserves for product `pid`
when executed in state `db`: the quantity of a reserve call for `pid` whose
transaction commits, `0` otherwise. -/
def opGain (pid : Nat) (db : DB) : Op → Nat
  | .reserveOp o p q locked =>
      match (Ticket.reserveTx db o p q locked).1 with
      | .ok _ => if p.id = pid then q else 0
      | .error _ => 0
  | _ => 0

/-- Sum of the quantities of the successful reserve calls for product `pid`
along a trace starting in `db`. -/
def okQtyFor (pid : Nat) (db : DB) : List Op → Nat
  | [] => 0
  | op :: ops => opGain pid db op + okQtyFor pid (step db op) ops

/-- Number of Ticket rows of product `pid` with a non-null order id. -/
def claimedCount (db : DB) (pid : Nat) : Nat :=
  (db.tickets.filter (fun t => t.product_id == pid && t.order_id.isSome)).length

/-- Schema well-formedness: ticket ids are pairwise distinct (`id` is a
primary key) and below the identity counter. -/
def WF (db : DB) : Prop :=
  (db.tickets.map (·.id)).Nodup ∧ ∀ t ∈ db.tickets, t.id < db.nextId

/-! ## Sample states used by the witnesses -/

/-- The empty database, as `create_tables` leaves it. -/
def dbEmpty : DB := ⟨[], [], [], [], 1⟩

/-- A sample event. -/
def eW : EventRow := ⟨1, "e"⟩

/-- A sample product of `eW` with quota 2. -/
def pW : ProductRow := ⟨2, 1, "p", 2⟩

/-- A sample order for `eW`. -/
def oW : OrderRow := ⟨3, 1⟩

/-- A sample state: event `eW`, product `pW`, order `oW`, and the two free
tickets of `pW`. -/
def dbW : DB :=
  ⟨[eW], [pW], [oW], [⟨4, 2, none⟩, ⟨5, 2, none⟩], 6⟩

/-- The state after `Event.ensure dbEmpty "e"`. -/
def dbE1 : DB := ⟨[⟨1, "e"⟩], [], [], [], 2⟩

/-- The product row `Product.ensure dbE1 ⟨1, "e"⟩ "p" 10` creates. -/
def pBug : ProductRow := ⟨2, 1, "p", 10⟩

/-- The state after ensuring `pBug` with quota 10: ten free tickets. -/
def dbE2 : DB :=
  ⟨[⟨1, "e"⟩], [pBug], [], (List.range 10).map (fun i => ⟨3 + i, 2, none⟩), 13⟩

/-- A sample state with one claimed and one free ticket of `pW`. -/
def dbC : DB := ⟨[eW], [pW], [oW], [⟨4, 2, some 3⟩, ⟨5, 2, none⟩], 6⟩

/-! ## Shared lemmas -/

/-- A reservation attempt that raises leaves the caller's rolled-back state
equal to the pre-state. -/
theorem reserveTx_snd_of_error (db : DB) (o : OrderRow) (p : ProductRow)
    (q : Nat) (locked : List Nat) (e : PyError)
    (h : (Ticket.reserveTx db o p q locked).1 = .error e) :
    (Ticket.reserveTx db o p q locked).2 = db := by
  rcases hR : Ticket.reserve db o p q locked with ⟨ex, db1⟩
  cases ex with
  | error e' => simp [Ticket.reserveTx, hR]
  | ok ids => simp [Ticket.reserveTx, hR] at h

/-- Characterization of a reservation transaction: either the claim
statement found fewer than `q` rows — `NotEnoughTickets`, rollback — or it
found exactly `q` and they commit as claimed. -/
theorem reserveTx_cases (db : DB) (o : OrderRow) (p : ProductRow) (q : Nat)
    (locked : List Nat) :
    (Ticket.reserveTx db o p q locked = (.error .notEnoughTickets, db) ∧
      (freeUnlocked db p.id locked).length < q) ∨
    (Ticket.reserveTx db o p q locked
        = (.ok (((freeUnlocked db p.id locked).take q).map (·.id)),
           applyClaims db (((freeUnlocked db p.id locked).take q).map (·.id))
             o.id) ∧
      (((freeUnlocked db p.id locked).take q).map (·.id)).length = q) := by
  by_cases hc : (freeUnlocked db p.id locked).length < q
  · left
    refine ⟨?_, hc⟩
    simp [Ticket.reserveTx, Ticket.reserve, Ticket.reserveSql, hc]
  · right
    refine ⟨?_, ?_⟩
    · simp [Ticket.reserveTx, Ticket.reserve, Ticket.reserveSql, hc]
    · simp only [List.length_map, List.length_take]
      omega

/-- A ticket of the database whose id is among the ids the claim statement
selected is itself one of the selected rows (ids are a primary key): it
belongs to the product, is free, and is not locked elsewhere. -/
theorem of_mem_claim_ids {db : DB} {pid q : Nat} {locked : List Nat}
    {t : TicketRow} (hwf : (db.tickets.map (·.id)).Nodup)
    (ht : t ∈ db.tickets)
    (hid : t.id ∈ ((freeUnlocked db pid locked).take q).map (·.id)) :
    t.product_id = pid ∧ t.order_id = none ∧ t.id ∉ locked := by
  obtain ⟨s, hs, hsid⟩ := List.mem_map.mp hid
  have hsL : s ∈ freeUnlocked db pid locked := List.mem_of_mem_take hs
  have hsmem : s ∈ db.tickets := (List.mem_filter.mp hsL).1
  have hpred := (List.mem_filter.mp hsL).2
  have hst : s = t := List.inj_on_of_nodup_map hwf hsmem ht hsid
  subst hst
  simpa [and_assoc] using hpred

/-- Effect of the claim update on the claimed-row count: every row whose id
is in the claimed set was free before the update, so the count grows by
exactly the number of rows of the product in the claimed set. -/
theorem length_filter_claims (l : List TicketRow) (ids : List Nat)
    (oid pid : Nat)
    (hnone : ∀ t ∈ l, t.id ∈ ids → t.order_id = none) :
    ((l.map (fun t => if ids.contains t.id then { t with order_id := some oid }
        else t)).filter
          (fun t => t.product_id == pid && t.order_id.isSome)).length
      = (l.filter (fun t => t.product_id == pid && t.order_id.isSome)).length
        + (l.filter (fun t => ids.contains t.id && t.product_id == pid)).length := by
  induction l with
  | nil => rfl
  | cons a l ih =>
    have ihl := ih (fun t ht hc => hnone t (List.mem_cons_of_mem a ht) hc)
    simp at ihl
    by_cases hida : a.id ∈ ids
    · have hnonea : a.order_id = none := hnone a (List.mem_cons_self a l) hida
      by_cases hpa : a.product_id = pid
      · simp [List.filter_cons, hida, hpa, hnonea]
        omega
      · simp [List.filter_cons, hida, hpa, hnonea]
        omega
    · by_cases hps : a.product_id = pid ∧ a.order_id.isSome = true
      · simp [List.filter_cons, hida, hps.1, hps.2]
        omega
      · simp [List.filter_cons, hida, hps]
        omega

/-- Filtering a duplicate-free list down to the members of one of its
sublists yields that sublist. -/
theorem filter_contains_of_sublist (s l : List Nat) (hsub : s.Sublist l) :
    l.Nodup → l.filter (fun a => s.contains a) = s := by
  induction hsub with
  | slnil => intro _; rfl
  | @cons l₁ l₂ a hsub ih =>
    intro hnd
    have hal2 : a ∉ l₂ := (List.nodup_cons.mp hnd).1
    have has : ¬ l₁.contains a = true := by
      intro hc
      exact hal2 (hsub.subset (by simpa using hc))
    rw [List.filter_cons, if_neg has]
    exact ih (List.nodup_cons.mp hnd).2
  | @cons₂ l₁ l₂ a hsub ih =>
    intro hnd
    have hal2 : a ∉ l₂ := (List.nodup_cons.mp hnd).1
    rw [List.filter_cons, if_pos (by simp)]
    congr 1
    have hcong : ∀ x ∈ l₂, ((a :: l₁).contains x) = (l₁.contains x) := by
      intro x hx
      have hxa : x ≠ a := fun hh => hal2 (hh ▸ hx)
      simp [List.contains_cons, hxa]
    rw [List.filter_congr hcong]
    exact ih (List.nodup_cons.mp hnd).2

/-- With distinct ticket ids, the number of tickets whose id is in the
claimed set equals the size of the claimed set. -/
theorem length_filter_contains_claim_ids (db : DB) (pid q : Nat)
    (locked : List Nat) (hwf : (db.tickets.map (·.id)).Nodup) :
    (db.tickets.filter (fun t =>
        (((freeUnlocked db pid locked).take q).map (·.id)).contains t.id)).length
      = (((freeUnlocked db pid locked).take q).map (·.id)).length := by
  have hsub : ((((freeUnlocked db pid locked).take q).map (·.id))).Sublist
      (db.tickets.map (·.id)) :=
    List.Sublist.map _ ((List.take_sublist _ _).trans (List.filter_sublist _))
  have hkey := filter_contains_of_sublist _ _ hsub hwf
  calc (db.tickets.filter (fun t =>
          (((freeUnlocked db pid locked).take q).map (·.id)).contains t.id)).length
      = List.countP (fun t =>
          (((freeUnlocked db pid locked).take q).map (·.id)).contains t.id)
          db.tickets := (List.countP_eq_length_filter _ _).symm
    _ = List.countP ((fun x =>
          (((freeUnlocked db pid locked).take q).map (·.id)).contains x)
            ∘ (·.id)) db.tickets := rfl
    _ = List.countP (fun x =>
          (((freeUnlocked db pid locked).take q).map (·.id)).contains x)
          (db.tickets.map (·.id)) := (List.countP_map _ _ _).symm
    _ = ((db.tickets.map (·.id)).filter (fun x =>
          (((freeUnlocked db pid locked).take q).map (·.id)).contains x)).length :=
        List.countP_eq_length_filter _ _
    _ = (((freeUnlocked db pid locked).take q).map (·.id)).length := by rw [hkey]

/-- The claim update never changes which product a ticket belongs to, so
per-product ticket counts are invariant under it. -/
theorem countTickets_applyClaims (db : DB) (ids : List Nat) (oid pid : Nat) :
    countTickets (applyClaims db ids oid) pid = countTickets db pid := by
  simp only [countTickets, applyClaims, ← List.countP_eq_length_filter,
    List.countP_map]
  apply List.countP_congr
  intro t ht
  by_cases hc : t.id ∈ ids <;> simp [hc]

/-- One step changes the claimed-row count of a product by exactly the
quantity the step successfully reserved for it: a reconcile only inserts
free rows, a failed reserve rolls back, a successful reserve claims its
quantity, a probe writes nothing. -/
theorem step_claimedCount (db : DB) (op : Op) (pid : Nat)
    (hwf : (db.tickets.map (·.id)).Nodup) :
    claimedCount (step db op) pid = claimedCount db pid + opGain pid db op := by
  cases op with
  | probe e locked => simp [step, Product.availabilityTx, opGain]
  | ensureTk p =>
    have hgain : opGain pid db (Op.ensureTk p) = 0 := rfl
    rw [hgain, Nat.add_zero]
    by_cases h1 : countTickets db p.id = p.quota
    · have hdb : step db (Op.ensureTk p) = db := by
        simp [step, Product.ensure_tickets, h1]
      rw [hdb]
    · by_cases h2 : countTickets db p.id > p.quota
      · have hdb : step db (Op.ensureTk p) = db := by
          simp [step, Product.ensure_tickets, h1, h2]
        rw [hdb]
      · have hstep : (step db (Op.ensureTk p)).tickets
            = db.tickets ++ (List.range (p.quota - countTickets db p.id)).map
                (fun j => ⟨db.nextId + j, p.id, none⟩) := by
          simp [step, Product.ensure_tickets, h1, h2]
        have hnew : ((List.range (p.quota - countTickets db p.id)).map
            (fun j => (⟨db.nextId + j, p.id, none⟩ : TicketRow))).filter
              (fun t => t.product_id == pid && t.order_id.isSome) = [] := by
          simp
        simp only [claimedCount, hstep, List.filter_append, hnew,
          List.length_append, List.length_nil, Nat.add_zero]
  | reserveOp o' p q locked =>
    rcases reserveTx_cases db o' p q locked with ⟨hR, hlt⟩ | ⟨hR, hlen⟩
    · have hdb : step db (Op.reserveOp o' p q locked) = db := by
        simp [step, hR]
      have hgain : opGain pid db (Op.reserveOp o' p q locked) = 0 := by
        simp [opGain, hR]
      rw [hdb, hgain, Nat.add_zero]
    · have hgain : opGain pid db (Op.reserveOp o' p q locked)
          = if p.id = pid then q else 0 := by
        simp [opGain, hR]
      have hstep : (step db (Op.reserveOp o' p q locked)).tickets
          = db.tickets.map (fun t =>
              if (((freeUnlocked db p.id locked).take q).map (·.id)).contains
                  t.id then
                { t with order_id := some o'.id } else t) := by
        simp [step, hR, applyClaims]
      have hnone : ∀ t ∈ db.tickets,
          t.id ∈ ((freeUnlocked db p.id locked).take q).map (·.id) →
            t.order_id = none := by
        intro t ht hc
        exact (of_mem_claim_ids hwf ht hc).2.1
      have hkey := length_filter_claims db.tickets
        (((freeUnlocked db p.id locked).take q).map (·.id)) o'.id pid hnone
      simp only [claimedCount, hstep]
      rw [hkey, hgain]
      by_cases hp : p.id = pid
      · subst hp
        have hfe : db.tickets.filter (fun t =>
              (((freeUnlocked db p.id locked).take q).map (·.id)).contains t.id
                && t.product_id == p.id)
            = db.tickets.filter (fun t =>
              (((freeUnlocked db p.id locked).take q).map (·.id)).contains
                t.id) := by
          apply List.filter_congr
          intro t ht
          by_cases hc :
              t.id ∈ ((freeUnlocked db p.id locked).map (·.id)).take q
          · have hc' : t.id ∈
                ((freeUnlocked db p.id locked).take q).map (·.id) := by
              rw [List.map_take]
              exact hc
            have hpt := (of_mem_claim_ids hwf ht hc').1
            simp [hc, hpt]
          · simp [hc]
        rw [hfe, length_filter_contains_claim_ids db p.id q locked hwf, hlen]
        simp
      · have hfe : db.tickets.filter (fun t =>
              (((freeUnlocked db p.id locked).take q).map (·.id)).contains t.id
                && t.product_id == pid)
            = [] := by
          rw [List.filter_eq_nil_iff]
          intro t ht
          by_cases hc :
              t.id ∈ ((freeUnlocked db p.id locked).map (·.id)).take q
          · have hc' : t.id ∈
                ((freeUnlocked db p.id locked).take q).map (·.id) := by
              rw [List.map_take]
              exact hc
            have hpt := (of_mem_claim_ids hwf ht hc').1
            simp [hc, hpt, hp]
          · simp [hc]
        rw [hfe]
        simp [hp]

/-- One step never lowers and never overshoots a product's ticket count:
if every reconcile step for the product targets quota `Q`, a count at most
`Q` stays at most `Q`. -/
theorem step_countTickets_le (db : DB) (op : Op) (pid Q : Nat)
    (hop : ∀ p, op = Op.ensureTk p → p.id = pid → p.quota = Q)
    (hle : countTickets db pid ≤ Q) :
    countTickets (step db op) pid ≤ Q := by
  cases op with
  | probe e locked => exact hle
  | reserveOp o' p q locked =>
    rcases reserveTx_cases db o' p q locked with ⟨hR, -⟩ | ⟨hR, -⟩
    · have hdb : step db (Op.reserveOp o' p q locked) = db := by
        simp [step, hR]
      rw [hdb]
      exact hle
    · have hstep : step db (Op.reserveOp o' p q locked)
          = applyClaims db (((freeUnlocked db p.id locked).take q).map (·.id))
              o'.id := by
        simp [step, hR]
      rw [hstep, countTickets_applyClaims]
      exact hle
  | ensureTk p =>
    by_cases h1 : countTickets db p.id = p.quota
    · have hdb : step db (Op.ensureTk p) = db := by
        simp [step, Product.ensure_tickets, h1]
      rw [hdb]
      exact hle
    · by_cases h2 : countTickets db p.id > p.quota
      · have hdb : step db (Op.ensureTk p) = db := by
          simp [step, Product.ensure_tickets, h1, h2]
        rw [hdb]
        exact hle
      · have hstep : (step db (Op.ensureTk p)).tickets
            = db.tickets ++ (List.range (p.quota - countTickets db p.id)).map
                (fun j => ⟨db.nextId + j, p.id, none⟩) := by
          simp [step, Product.ensure_tickets, h1, h2]
        by_cases hp : p.id = pid
        · have hquota : p.quota = Q := hop p rfl hp
          have hnew : (((List.range (p.quota - countTickets db p.id)).map
              (fun j => (⟨db.nextId + j, p.id, none⟩ : TicketRow))).filter
                (fun t => t.product_id == pid)).length
              = p.quota - countTickets db p.id := by
            have hall : ∀ t ∈ (List.range (p.quota - countTickets db p.id)).map
                (fun j => (⟨db.nextId + j, p.id, none⟩ : TicketRow)),
                (fun t : TicketRow => t.product_id == pid) t = true := by
              intro t ht
              obtain ⟨j, -, rfl⟩ := List.mem_map.mp ht
              simp [hp]
            rw [List.filter_eq_self.mpr hall]
            simp
          have hcnt : countTickets (step db (Op.ensureTk p)) pid
              = countTickets db pid + (p.quota - countTickets db p.id) := by
            show ((step db (Op.ensureTk p)).tickets.filter
                (fun t => t.product_id == pid)).length = _
            rw [hstep, List.filter_append, List.length_append, hnew]
            rfl
          rw [hcnt]
          subst hp
          omega
        · have hnew : ((List.range (p.quota - countTickets db p.id)).map
              (fun j => (⟨db.nextId + j, p.id, none⟩ : TicketRow))).filter
                (fun t => t.product_id == pid) = [] := by
            rw [List.filter_eq_nil_iff]
            intro t ht
            obtain ⟨j, -, rfl⟩ := List.mem_map.mp ht
            simp [hp]
          have hcnt : countTickets (step db (Op.ensureTk p)) pid
              = countTickets db pid := by
            show ((step db (Op.ensureTk p)).tickets.filter
                (fun t => t.product_id == pid)).length = _
            rw [hstep, List.filter_append, hnew, List.length_append,
              List.length_nil, Nat.add_zero]
            rfl
          rw [hcnt]
          exact hle

/-- One step preserves schema well-formedness: fresh ticket ids come from
the identity counter and claims never touch ids. -/
theorem step_WF (db : DB) (op : Op) (hwf : WF db) : WF (step db op) := by
  obtain ⟨hnd, hlt⟩ := hwf
  cases op with
  | probe e locked => exact ⟨hnd, hlt⟩
  | reserveOp o' p q locked =>
    rcases reserveTx_cases db o' p q locked with ⟨hR, -⟩ | ⟨hR, -⟩
    · have hdb : step db (Op.reserveOp o' p q locked) = db := by
        simp [step, hR]
      rw [hdb]
      exact ⟨hnd, hlt⟩
    · have hstep : step db (Op.reserveOp o' p q locked)
          = applyClaims db (((freeUnlocked db p.id locked).take q).map (·.id))
              o'.id := by
        simp [step, hR]
      rw [hstep]
      have hids : (applyClaims db (((freeUnlocked db p.id locked).take q).map
            (·.id)) o'.id).tickets.map (·.id) = db.tickets.map (·.id) := by
        simp only [applyClaims, List.map_map]
        apply List.map_congr_left
        intro t ht
        simp only [Function.comp_apply]
        split <;> rfl
      constructor
      · rw [hids]
        exact hnd
      · intro t ht
        simp only [applyClaims, List.mem_map] at ht
        obtain ⟨s, hs, rfl⟩ := ht
        have hsl := hlt s hs
        split <;> exact hsl
  | ensureTk p =>
    by_cases h1 : countTickets db p.id = p.quota
    · have hdb : step db (Op.ensureTk p) = db := by
        simp [step, Product.ensure_tickets, h1]
      rw [hdb]
      exact ⟨hnd, hlt⟩
    · by_cases h2 : countTickets db p.id > p.quota
      · have hdb : step db (Op.ensureTk p) = db := by
          simp [step, Product.ensure_tickets, h1, h2]
        rw [hdb]
        exact ⟨hnd, hlt⟩
      · have hstep : (step db (Op.ensureTk p)).tickets
            = db.tickets ++ (List.range (p.quota - countTickets db p.id)).map
                (fun j => ⟨db.nextId + j, p.id, none⟩) := by
          simp [step, Product.ensure_tickets, h1, h2]
        have hnext : (step db (Op.ensureTk p)).nextId
            = db.nextId + (p.quota - countTickets db p.id) := by
          simp [step, Product.ensure_tickets, h1, h2]
        constructor
        · rw [hstep, List.map_append, List.nodup_append]
          refine ⟨hnd, ?_, ?_⟩
          · rw [List.map_map]
            exact (List.nodup_range _).map
              (fun a b hab => by
                have hab' : db.nextId + a = db.nextId + b := by
                  simpa using hab
                omega)
          · intro x hx hx'
            simp only [List.mem_map] at hx
            obtain ⟨t, ht, rfl⟩ := hx
            have hxlt := hlt t ht
            simp only [List.map_map, List.mem_map, Function.comp] at hx'
            obtain ⟨j, -, hj⟩ := hx'
            omega
        · intro t ht
          rw [hstep] at ht
          rw [hnext]
          rcases List.mem_append.mp ht with hold | hnewm
          · have := hlt t hold
            omega
          · obtain ⟨j, hj, rfl⟩ := List.mem_map.mp hnewm
            have := List.mem_range.mp hj
            simp
            omega

/-- Running a trace preserves schema well-formedness. -/
theorem run_WF (db : DB) (ops : List Op) (hwf : WF db) : WF (run db ops) := by
  induction ops generalizing db with
  | nil => exact hwf
  | cons op ops ih => exact ih (step db op) (step_WF db op hwf)

/-- Along a whole trace, the claimed-row count of a product grows by exactly
the sum of the successfully reserved quantities for it. -/
theorem run_claimedCount (db : DB) (ops : List Op) (pid : Nat) (hwf : WF db) :
    claimedCount (run db ops) pid = claimedCount db pid + okQtyFor pid db ops := by
  induction ops generalizing db with
  | nil => simp [run, okQtyFor]
  | cons op ops ih =>
    have h1 := ih (step db op) (step_WF db op hwf)
    have h2 := step_claimedCount db op pid hwf.1
    simp only [run, okQtyFor]
    rw [h1, h2]
    omega

/-- Along a whole trace whose reconcile steps for the product all target
quota `Q`, the product's ticket count stays at most `Q`. -/
theorem run_countTickets_le (db : DB) (ops : List Op) (pid Q : Nat)
    (hops : ∀ op ∈ ops, ∀ p, op = Op.ensureTk p → p.id = pid → p.quota = Q)
    (hle : countTickets db pid ≤ Q) : countTickets (run db ops) pid ≤ Q := by
  induction ops generalizing db with
  | nil => exact hle
  | cons op ops ih =>
    have hle' := step_countTickets_le db op pid Q
      (fun p hp => hops op (List.mem_cons_self op ops) p hp) hle
    exact ih (step db op)
      (fun op' hop' => hops op' (List.mem_cons_of_mem op hop')) hle'

/-- Claimed tickets of a product are a sub-collection of its tickets. -/
theorem claimedCount_le_countTickets (db : DB) (pid : Nat) :
    claimedCount db pid ≤ countTickets db pid := by
  simp only [claimedCount, countTickets, ← List.countP_eq_length_filter]
  exact List.countP_mono_left
    (fun t _ h => by
      simp only [Bool.and_eq_true] at h
      exact h.1)

/-! ## Claims -/

/-- C10: for every order and product, `reserve(order, product, 0)` never
fails with `NotEnoughTickets` and returns the empty list, even when the
product has zero free tickets, and it leaves every Ticket row unchanged. -/
theorem C10_reserve_zero (db : DB) (o : OrderRow) (p : ProductRow)
    (locked : List Nat) :
    Ticket.reserveTx db o p 0 locked = (.ok [], db) := by
  simp [Ticket.reserveTx, Ticket.reserve, Ticket.reserveSql, applyClaims]

/-- C5: a reserve call that fails with `NotEnoughTickets` leaves the count
of free tickets of that product unchanged once the enclosing transaction is
rolled back. -/
theorem C5_failed_reserve_preserves_free (db : DB) (o : OrderRow)
    (p : ProductRow) (q : Nat) (locked : List Nat)
    (h : (Ticket.reserveTx db o p q locked).1 = .error .notEnoughTickets) :
    Ticket.count_free (Ticket.reserveTx db o p q locked).2 p.id
      = Ticket.count_free db p.id := by
  rw [reserveTx_snd_of_error db o p q locked _ h]

/-- C5 witness: in `dbW` (two free tickets) a reserve of 3 fails, and the
free count after rollback equals the free count before. -/
theorem C5_witness :
    (Ticket.reserveTx dbW oW pW 3 []).1 = .error .notEnoughTickets ∧
    Ticket.count_free (Ticket.reserveTx dbW oW pW 3 []).2 pW.id
      = Ticket.count_free dbW pW.id :=
  ⟨rfl, C5_failed_reserve_preserves_free dbW oW pW 3 [] rfl⟩

/-- C3: the get-or-create race is NOT error-free as claimed: the first
`Event.ensure` creates the single row, but a second call with the same slug
takes the already-exists path of `ensure_row`, whose fallback lookup unpacks
the unique-field dict with `*` into positional arguments of `get_row` and so
raises `TypeError`. -/
theorem C3_bug_eval :
    Event.ensure dbEmpty "e" = .ok (⟨1, "e"⟩, dbE1) ∧
    (dbE1.events.filter (fun ev => ev.slug == "e")).length = 1 ∧
    Event.ensure dbE1 "e" = .error .typeError := ⟨rfl, rfl, rfl⟩

/-- C4: `ensureProduct` twice with quotas 10 then 15 does NOT yield 15
ticket rows: the first call creates 10 tickets, and the second call raises
`TypeError` in `ensure_row`'s already-exists fallback, leaving 10 rows. -/
theorem C4_bug_eval :
    Product.ensure dbE1 ⟨1, "e"⟩ "p" 10 = .ok (pBug, dbE2) ∧
    countTickets dbE2 pBug.id = 10 ∧
    Product.ensure dbE2 ⟨1, "e"⟩ "p" 15 = .error .typeError := ⟨rfl, rfl, rfl⟩

/-- C6: quota reconciliation compares the product's ticket count C with the
target T: if C = T it changes nothing; if C > T it fails (the shrink
`NotImplementedError`) without modifying any row; if C < T it appends
exactly T − C new free rows for the product, modifying no existing row. -/
theorem C6_ensure_tickets_cases (db : DB) (p : ProductRow) :
    (countTickets db p.id = p.quota → Product.ensure_tickets db p = .ok db) ∧
    (countTickets db p.id > p.quota →
      Product.ensure_tickets db p = .error .notImplementedError) ∧
    (countTickets db p.id < p.quota →
      ∃ newRows,
        Product.ensure_tickets db p =
          .ok { db with
                tickets := db.tickets ++ newRows,
                nextId := db.nextId + (p.quota - countTickets db p.id) } ∧
        newRows.length = p.quota - countTickets db p.id ∧
        ∀ t ∈ newRows, t.product_id = p.id ∧ t.order_id = none) := by
  refine ⟨?_, ?_, ?_⟩
  · intro h
    simp [Product.ensure_tickets, h]
  · intro h
    simp [Product.ensure_tickets, Nat.ne_of_gt h, h]
  · intro h
    refine ⟨(List.range (p.quota - countTickets db p.id)).map
        (fun i => ⟨db.nextId + i, p.id, none⟩), ?_, ?_, ?_⟩
    · simp [Product.ensure_tickets, Nat.ne_of_lt h, Nat.not_lt.mpr h.le]
    · simp
    · intro t ht
      obtain ⟨i, _, rfl⟩ := List.mem_map.mp ht
      exact ⟨rfl, rfl⟩

/-- C6 witness: in `dbE1` the product `pBug` has 0 < 10 tickets, so
reconciliation appends exactly 10 fresh free rows. -/
theorem C6_witness :
    ∃ newRows,
      Product.ensure_tickets dbE1 pBug =
        .ok { dbE1 with
              tickets := dbE1.tickets ++ newRows,
              nextId := dbE1.nextId + (pBug.quota - countTickets dbE1 pBug.id) } ∧
      newRows.length = pBug.quota - countTickets dbE1 pBug.id ∧
      ∀ t ∈ newRows, t.product_id = pBug.id ∧ t.order_id = none :=
  (C6_ensure_tickets_cases dbE1 pBug).2.2 (by decide)

/-- C8: `availability(event)` returns one (product, boolean) entry per
product of the event, and each boolean is true iff at least one free (null
order id), currently-unlocked ticket of that product exists. -/
theorem C8_availability (db : DB) (e : EventRow) (locked : List Nat) :
    (Product.get_products_with_availability db e locked).map Prod.fst
      = db.products.filter (fun p => p.event_id == e.id) ∧
    ∀ p b, (p, b) ∈ Product.get_products_with_availability db e locked →
      (b = true ↔ ∃ t ∈ db.tickets, t.product_id = p.id ∧
        t.order_id = none ∧ t.id ∉ locked) := by
  constructor
  · simp [Product.get_products_with_availability, List.map_map, Function.comp_def]
  · intro p b hmem
    simp only [Product.get_products_with_availability, List.mem_map] at hmem
    obtain ⟨q, hq, heq⟩ := hmem
    injection heq with h1 h2
    subst h1
    subst h2
    simp [List.find?_isSome, and_assoc]

/-- C8 witness: in `dbW` the product `pW` is reported available, and indeed
a free unlocked ticket of `pW` exists. -/
theorem C8_witness :
    ((pW, true) ∈ Product.get_products_with_availability dbW eW []) ∧
    (true = true ↔ ∃ t ∈ dbW.tickets, t.product_id = pW.id ∧
      t.order_id = none ∧ t.id ∉ ([] : List Nat)) :=
  ⟨by decide, (C8_availability dbW eW []).2 pW true (by decide)⟩

/-- C2: `reserve(order, product, n)` fails with `NotEnoughTickets` iff fewer
than `n` free, unlocked tickets of the product could be claimed; otherwise
it succeeds and returns exactly `n` distinct claimed ticket ids, each of a
previously free ticket of that product whose order id is now the requesting
order's id in the committed state. -/
theorem C2_reserve_contract (db : DB) (o : OrderRow) (p : ProductRow)
    (n : Nat) (locked : List Nat)
    (hwf : (db.tickets.map (·.id)).Nodup) :
    ((Ticket.reserveTx db o p n locked).1 = .error .notEnoughTickets ↔
      (freeUnlocked db p.id locked).length < n) ∧
    ∀ ids, (Ticket.reserveTx db o p n locked).1 = .ok ids →
      ids.length = n ∧ ids.Nodup ∧
      ∀ i ∈ ids, ∃ t ∈ db.tickets, t.id = i ∧ t.product_id = p.id ∧
        t.order_id = none ∧
        ∃ u ∈ (Ticket.reserveTx db o p n locked).2.tickets,
          u.id = i ∧ u.product_id = p.id ∧ u.order_id = some o.id := by
  rcases reserveTx_cases db o p n locked with ⟨hR, hlt⟩ | ⟨hR, hlen⟩
  · constructor
    · rw [hR]
      simpa using hlt
    · intro ids hids
      rw [hR] at hids
      simp at hids
  · have hnlt : ¬ (freeUnlocked db p.id locked).length < n := by
      simp only [List.length_map, List.length_take] at hlen
      omega
    constructor
    · rw [hR]
      simp [hnlt]
    · intro ids hids
      rw [hR] at hids
      simp only [Except.ok.injEq] at hids
      subst hids
      refine ⟨hlen, ?_, ?_⟩
      · have hsub : ((((freeUnlocked db p.id locked).take n).map (·.id))).Sublist
            (db.tickets.map (·.id)) :=
          List.Sublist.map _
            ((List.take_sublist _ _).trans (List.filter_sublist _))
        exact hsub.nodup hwf
      · intro i hi
        obtain ⟨s, hs, rfl⟩ := List.mem_map.mp hi
        have hsL : s ∈ freeUnlocked db p.id locked := List.mem_of_mem_take hs
        have hsmem : s ∈ db.tickets := (List.mem_filter.mp hsL).1
        have hpred := (List.mem_filter.mp hsL).2
        simp only [freeUnlocked, List.mem_filter, Bool.and_eq_true, beq_iff_eq,
          Bool.not_eq_true'] at hpred
        refine ⟨s, hsmem, rfl, hpred.1.1, hpred.1.2, ?_⟩
        refine ⟨{ s with order_id := some o.id }, ?_, rfl, hpred.1.1, rfl⟩
        rw [hR]
        refine List.mem_map.mpr ⟨s, hsmem, ?_⟩
        have hi' : s.id ∈ List.take n (List.map (fun x => x.id)
            (freeUnlocked db p.id locked)) := by
          simpa [List.map_take] using hi
        simp [hi']

/-- C2 witness: in `dbW` (two free tickets) a reserve of 1 succeeds with the
whole contract instantiated. -/
theorem C2_witness :
    ((Ticket.reserveTx dbW oW pW 1 []).1 = .error .notEnoughTickets ↔
      (freeUnlocked dbW pW.id []).length < 1) ∧
    ∀ ids, (Ticket.reserveTx dbW oW pW 1 []).1 = .ok ids →
      ids.length = 1 ∧ ids.Nodup ∧
      ∀ i ∈ ids, ∃ t ∈ dbW.tickets, t.id = i ∧ t.product_id = pW.id ∧
        t.order_id = none ∧
        ∃ u ∈ (Ticket.reserveTx dbW oW pW 1 []).2.tickets,
          u.id = i ∧ u.product_id = pW.id ∧ u.order_id = some oW.id :=
  C2_reserve_contract dbW oW pW 1 [] (by decide)

/-- C7: no operation step ever changes a Ticket row's order id once it is
non-null: across a reconcile, reserve or probe step the row at the same
position keeps its id, its product and its (non-null) order id; only the
free-to-claimed transition can occur. -/
theorem C7_claimed_immutable (db : DB) (op : Op) (i : Nat)
    (h : i < db.tickets.length) (o : Nat)
    (hwf : (db.tickets.map (·.id)).Nodup)
    (ho : (db.tickets.get ⟨i, h⟩).order_id = some o) :
    ∃ h' : i < (step db op).tickets.length,
      ((step db op).tickets.get ⟨i, h'⟩).id = (db.tickets.get ⟨i, h⟩).id ∧
      ((step db op).tickets.get ⟨i, h'⟩).product_id
        = (db.tickets.get ⟨i, h⟩).product_id ∧
      ((step db op).tickets.get ⟨i, h'⟩).order_id = some o := by
  cases op with
  | probe e locked => exact ⟨h, rfl, rfl, ho⟩
  | ensureTk p =>
    by_cases h1 : countTickets db p.id = p.quota
    · have hdb : step db (Op.ensureTk p) = db := by
        simp [step, Product.ensure_tickets, h1]
      rw [hdb]
      exact ⟨h, rfl, rfl, ho⟩
    · by_cases h2 : countTickets db p.id > p.quota
      · have hdb : step db (Op.ensureTk p) = db := by
          simp [step, Product.ensure_tickets, h1, h2]
        rw [hdb]
        exact ⟨h, rfl, rfl, ho⟩
      · have hstep : (step db (Op.ensureTk p)).tickets
            = db.tickets ++ (List.range (p.quota - countTickets db p.id)).map
                (fun j => ⟨db.nextId + j, p.id, none⟩) := by
          simp [step, Product.ensure_tickets, h1, h2]
        have h' : i < (step db (Op.ensureTk p)).tickets.length := by
          rw [hstep, List.length_append]
          omega
        refine ⟨h', ?_⟩
        have hget : (step db (Op.ensureTk p)).tickets.get ⟨i, h'⟩
            = db.tickets.get ⟨i, h⟩ := by
          simp only [List.get_eq_getElem]
          rw [List.getElem_of_eq hstep, List.getElem_append_left h]
        rw [hget]
        exact ⟨rfl, rfl, ho⟩
  | reserveOp o' p q locked =>
    rcases reserveTx_cases db o' p q locked with ⟨hR, -⟩ | ⟨hR, -⟩
    · have hdb : step db (Op.reserveOp o' p q locked) = db := by
        simp [step, hR]
      rw [hdb]
      exact ⟨h, rfl, rfl, ho⟩
    · have hstep : (step db (Op.reserveOp o' p q locked)).tickets
          = db.tickets.map (fun t =>
              if (((freeUnlocked db p.id locked).take q).map (·.id)).contains
                  t.id then
                { t with order_id := some o'.id } else t) := by
        simp [step, hR, applyClaims]
      have h' : i < (step db (Op.reserveOp o' p q locked)).tickets.length := by
        rw [hstep, List.length_map]
        exact h
      refine ⟨h', ?_⟩
      have hnotin : ¬ (db.tickets.get ⟨i, h⟩).id ∈
          (((freeUnlocked db p.id locked).take q).map (·.id)) := by
        intro hin
        have hmem : (db.tickets.get ⟨i, h⟩) ∈ db.tickets :=
          db.tickets.get_mem i h
        have hnone := (of_mem_claim_ids hwf hmem hin).2.1
        rw [ho] at hnone
        exact Option.noConfusion hnone
      have hnotin' : ¬ (db.tickets.get ⟨i, h⟩).id ∈
          ((freeUnlocked db p.id locked).map (·.id)).take q := by
        rw [← List.map_take]
        exact hnotin
      have hget : (step db (Op.reserveOp o' p q locked)).tickets.get ⟨i, h'⟩
          = db.tickets.get ⟨i, h⟩ := by
        simp only [List.get_eq_getElem]
        rw [List.getElem_of_eq hstep, List.getElem_map]
        simp only [List.get_eq_getElem] at hnotin'
        simp [hnotin']
      rw [hget]
      exact ⟨rfl, rfl, ho⟩

/-- C7 witness: in `dbC` the ticket at position 0 is claimed by order 3, and
a subsequent reserve step for the same product keeps its order id. -/
theorem C7_witness :
    ∃ h' : 0 < (step dbC (Op.reserveOp oW pW 1 [])).tickets.length,
      ((step dbC (Op.reserveOp oW pW 1 [])).tickets.get ⟨0, h'⟩).id
        = (dbC.tickets.get ⟨0, by decide⟩).id ∧
      ((step dbC (Op.reserveOp oW pW 1 [])).tickets.get ⟨0, h'⟩).product_id
        = (dbC.tickets.get ⟨0, by decide⟩).product_id ∧
      ((step dbC (Op.reserveOp oW pW 1 [])).tickets.get ⟨0, h'⟩).order_id
        = some 3 :=
  C7_claimed_immutable dbC (Op.reserveOp oW pW 1 []) 0 (by decide) 3
    (by decide) (by decide)

/-- C1: for a product with quota `Q`, after any trace of reconcile, reserve
and probe transactions — each reserve seeing an adversarial set of rows
locked by other in-flight transactions, failed reserves rolled back —
starting from a state with no tickets of the product, the number of Ticket
rows of the product with a non-null order id is at most `Q` and equals the
sum of the quantities of exactly the successful reserve calls. -/
theorem C1_no_overselling (db0 : DB) (ops : List Op) (pid Q : Nat)
    (hwf : WF db0) (h0 : countTickets db0 pid = 0)
    (hops : ∀ op ∈ ops, ∀ p, op = Op.ensureTk p → p.id = pid → p.quota = Q) :
    claimedCount (run db0 ops) pid ≤ Q ∧
    claimedCount (run db0 ops) pid = okQtyFor pid db0 ops := by
  have h1 := run_countTickets_le db0 ops pid Q hops (by omega)
  have h2 := run_claimedCount db0 ops pid hwf
  have h3 := claimedCount_le_countTickets (run db0 ops) pid
  have h4 := claimedCount_le_countTickets db0 pid
  exact ⟨by omega, by omega⟩

/-- A sample trace: reconcile `pW` to quota 2, a successful reserve of 2,
then a failing reserve of 1. -/
def opsW : List Op :=
  [Op.ensureTk pW, Op.reserveOp oW pW 2 [], Op.reserveOp oW pW 1 []]

/-- C1 witness: running the sample trace from the empty database claims at
most 2 tickets of `pW`, exactly the successfully reserved quantity. -/
theorem C1_witness :
    claimedCount (run dbEmpty opsW) pW.id ≤ 2 ∧
    claimedCount (run dbEmpty opsW) pW.id = okQtyFor pW.id dbEmpty opsW :=
  C1_no_overselling dbEmpty opsW pW.id 2 ⟨by decide, by decide⟩ (by decide)
    (by
      intro op hop p hp hpid
      simp only [opsW, List.mem_cons, List.not_mem_nil, or_false] at hop
      rcases hop with rfl | rfl | rfl
      · injection hp with h
        subst h
        rfl
      · exact Op.noConfusion hp
      · exact Op.noConfusion hp)

/-- C9: the availability probe has no side effect: its transaction leaves
the database rows exactly as they were, and inserting a probe anywhere into
a trace of operations does not change the trace's outcome. -/
theorem C9_probe_no_side_effect (db : DB) (e : EventRow) (locked : List Nat)
    (ops1 ops2 : List Op) :
    (Product.availabilityTx db e locked).2 = db ∧
    run db (ops1 ++ Op.probe e locked :: ops2) = run db (ops1 ++ ops2) := by
  refine ⟨rfl, ?_⟩
  induction ops1 generalizing db with
  | nil => rfl
  | cons op ops ih =>
    simp only [List.cons_append, run]
    exact ih (step db op)

end Emticketen
